import Mathlib

/-
Verification of the content build pipeline of the books repository
(src/scripts/build-content.js) against its specification.

The JavaScript source is shallowly embedded: strings are Lean strings
(lists of characters), the regular expressions used by the script are
translated to explicit scanning functions with the same leftmost-match
and backtracking semantics, and the filesystem state of one book
directory is a record listing the directory name, the file names inside
it and the text of its index.md.  A build step that throws in JS
(TypeError on a failed regex match) is modelled by Option, none meaning
the build aborts.
-/

namespace Books

/-! ## JavaScript string primitives -/

/-- Whitespace as matched by the JS regex class backslash-s
(space, tab, newline, carriage return, vertical tab, form feed). -/
def jsWs (c : Char) : Bool :=
  c = ' ' || c = '\t' || c = '\n' || c = '\r' || c = '\x0b' || c = '\x0c'

/-- Digit as matched by the JS regex class backslash-d. -/
def jsDigit (c : Char) : Bool :=
  '0' ≤ c && c ≤ '9'

/-- Word character as matched by the JS regex class backslash-w. -/
def jsWord (c : Char) : Bool :=
  ('a' ≤ c && c ≤ 'z') || ('A' ≤ c && c ≤ 'Z') || jsDigit c || c = '_'

/-- Substring test, as in JS String.prototype.includes. -/
def containsL (s pat : List Char) : Bool :=
  pat.isPrefixOf s ||
    match s with
    | [] => false
    | _ :: cs => containsL cs pat

/-- Replacement of the first occurrence of a pattern, as in JS
String.prototype.replace with a plain string pattern. -/
def replaceFirstL (pat rep : List Char) : List Char → List Char
  | [] => []
  | c :: cs =>
    if pat.isPrefixOf (c :: cs) then rep ++ (c :: cs).drop pat.length
    else c :: replaceFirstL pat rep cs

/-- Worker for replaceAllL: the counter holds how many characters of an
already matched occurrence remain to be consumed without being copied
to the output. -/
def replaceAllGo (pat rep : List Char) : List Char → Nat → List Char
  | [], _ => []
  | _ :: cs, k + 1 => replaceAllGo pat rep cs k
  | c :: cs, 0 =>
    if !pat.isEmpty && pat.isPrefixOf (c :: cs) then
      rep ++ replaceAllGo pat rep cs (pat.length - 1)
    else
      c :: replaceAllGo pat rep cs 0

/-- Replacement of every occurrence of a pattern, scanning left to right
and not rescanning replaced text, as in JS String.prototype.replace with
a global regex whose pattern is a literal string. -/
def replaceAllL (pat rep s : List Char) : List Char :=
  replaceAllGo pat rep s 0

/-- Trim, as in JS String.prototype.trim. -/
def jsTrimL (s : List Char) : List Char :=
  ((s.dropWhile jsWs).reverse.dropWhile jsWs).reverse

/-- Lexicographic comparison of character lists by code point, the
comparison used by the default JS Array.prototype.sort on strings. -/
def charListLt : List Char → List Char → Bool
  | [], [] => false
  | [], _ :: _ => true
  | _ :: _, [] => false
  | a :: as, b :: bs =>
    if a.toNat < b.toNat then true
    else if b.toNat < a.toNat then false
    else charListLt as bs

def strLt (a b : String) : Bool := charListLt a.data b.data

/-- Split on a separator character, as JS String.prototype.split with a
one-character separator: the empty string splits to one empty piece. -/
def splitOnCharL (sep : Char) : List Char → List (List Char)
  | [] => [[]]
  | c :: cs =>
    let r := splitOnCharL sep cs
    if c = sep then [] :: r
    else
      match r with
      | [] => [[c]]
      | x :: xs => (c :: x) :: xs

/-- Stable insertion of an element into a list sorted by a boolean
strict order: the element goes before the first entry not below it, so
equal entries keep their original relative order. -/
def insertStable (lt : α → α → Bool) (x : α) : List α → List α
  | [] => [x]
  | y :: ys => if lt y x then y :: insertStable lt x ys else x :: y :: ys

/-- Stable sort by a boolean strict order, the behaviour of the (stable)
JS Array.prototype.sort. -/
def stableSort (lt : α → α → Bool) : List α → List α
  | [] => []
  | x :: xs => insertStable lt x (stableSort lt xs)

/-! ## Path handling (node path module, for the slash-separated paths
the build script produces) -/

/-- Joining a directory and a file name, as path.join does for the
simple relative paths used by the script. -/
def pjoin (dir f : String) : String := dir ++ "/" ++ f

/-- Last path segment, as path.basename. -/
def basename (p : String) : String :=
  ((splitOnCharL '/' p.data).getLastD []).asString

/-- Stripping a trailing ".md", as path.basename(p, ".md") does on a
bare file name: the suffix is removed only when the name properly ends
with it. -/
def stripMd (s : String) : String :=
  if s ≠ ".md" && ('.' :: 'm' :: 'd' :: []).isSuffixOf s.data then
    (s.data.take (s.data.length - 3)).asString
  else s

/-- Test for extname(f) = ".md" on a bare file name: the name ends in
".md" and the final dot is not its first character. -/
def isMdExt (f : String) : Bool :=
  ('.' :: 'm' :: 'd' :: []).isSuffixOf f.data && decide (4 ≤ f.data.length)

/-! ## The regexes of build-content.js -/

/-- Scan for the two-character sequence close-bracket open-paren
followed later by ".md)": the tail of the chapter-link filter regex.
This realises the backtracking search of the two dot-star gaps. -/
def linkShape (cs : List Char) : Bool :=
  (((']' :: '(' :: []).isPrefixOf cs) && containsL (cs.drop 2) ('.' :: 'm' :: 'd' :: ')' :: [])) ||
    match cs with
    | [] => false
    | _ :: tail => linkShape tail

/-- Test of one manifest line against the filter regex
caret backslash-s star, star, backslash-s plus, bracketed label,
parenthesised target ending in ".md" (line 157 of the script).  The
leading anchors are deterministic because star and open-bracket are not
whitespace, so only the maximal whitespace runs can match. -/
def manifestLineTest (line : String) : Bool :=
  match line.data.dropWhile jsWs with
  | '*' :: rest =>
    if (rest.takeWhile jsWs).isEmpty then false
    else
      match rest.dropWhile jsWs with
      | '[' :: rest2 => linkShape rest2
      | _ => false
  | _ => false

/-- Capture group of the extraction regex: open paren, one or more
non-close-paren characters ending in ".md", close paren (line 158 of
the script).  The engine takes the leftmost open paren whose run of
non-close-paren characters up to the next close paren ends in ".md"
and has length at least four. -/
def extractTarget : List Char → Option (List Char)
  | [] => none
  | c :: rest =>
    if c = '(' then
      let run := rest.takeWhile (fun x => x ≠ ')')
      if (rest.drop run.length).head? = some ')' &&
          ('.' :: 'm' :: 'd' :: []).isSuffixOf run && decide (4 ≤ run.length) then
        some run
      else extractTarget rest
    else extractTarget rest

/-- Match of the title regex caret hash backslash-s plus, captured rest
of line, dollar, in multiline mode, attempted at one line start.  The
backslash-s plus may consume newlines; the capture is the maximal run
of non-newline characters after the greedily shortened whitespace run.
Returns the capture when the regex matches at this position. -/
def h1MatchAt : List Char → Option (List Char)
  | '#' :: rest =>
    let ws := rest.takeWhile jsWs
    if ws.isEmpty then none
    else
      match rest.drop ws.length with
      | c :: tail => some (c :: tail.takeWhile (fun x => x ≠ '\n'))
      | [] =>
        -- whitespace runs to the end of input: the greedy backtracking
        -- leaves the last non-newline whitespace character as capture
        match (ws.drop 1).reverse.find? (fun x => x ≠ '\n') with
        | some c => some (c :: [])
        | none => none
  | _ => none

/-- Suffixes of a character list that start right after a newline, in
order of occurrence. -/
def tailsAfterNl : List Char → List (List Char)
  | [] => []
  | c :: cs => if c = '\n' then cs :: tailsAfterNl cs else tailsAfterNl cs

/-- Leftmost multiline match of the title regex over the whole source:
the engine tries every line start in order (line 193 of the script). -/
def firstH1Capture (s : List Char) : Option (List Char) :=
  (s :: tailsAfterNl s).findSome? h1MatchAt

/-- First maximal run of decimal digits in a string, as the JS regex
backslash-d plus finds it. -/
def firstDigitRun : List Char → Option (List Char)
  | [] => none
  | c :: rest =>
    if jsDigit c then some (c :: rest.takeWhile jsDigit)
    else firstDigitRun rest

def digitsToNat (ds : List Char) : Nat :=
  ds.foldl (fun acc c => acc * 10 + (c.toNat - '0'.toNat)) 0

/-- Sort key of the navigation re-sort (lines 226 to 227 of the script):
parseInt of the first digit run of the full path, 0 when there is none.
Note that the script applies this to the joined path, directory part
included, not to the bare file name. -/
def navKey (p : String) : Nat :=
  match firstDigitRun p.data with
  | some ds => digitsToNat ds
  | none => 0

/-! ## Book discovery and chapter ordering -/

/-- Filesystem state of one book directory: its path, the names of the
files it contains, and the text of its index.md (only consulted when
"index.md" is among the files). -/
structure DirModel where
  dir : String
  files : List String
  indexContent : String

/-- Lines of the index.md that pass the chapter-link filter. -/
def matchedLines (d : DirModel) : List String :=
  ((splitOnCharL '\n' d.indexContent.data).map List.asString).filter manifestLineTest

/-- Extraction of the link target of one matched line; none models the
TypeError the script throws when the extraction regex finds nothing on
a line the filter accepted. -/
def lineTarget (line : String) : Option String :=
  (extractTarget line.data).map List.asString

/-- Lexically sorted markdown files of the directory, the fallback
order (lines 146 to 149 of the script). -/
def lexicalOrder (d : DirModel) : List String :=
  (stableSort strLt (d.files.filter isMdExt)).map (pjoin d.dir)

/-- getOrderedMarkdownFiles (lines 144 to 166 of the script): manifest
order from index.md when at least one line matches, else lexical order;
none models the build aborting on a TypeError during extraction. -/
def getOrderedMarkdownFiles (d : DirModel) : Option (List String) :=
  if "index.md" ∈ d.files then
    let matched := matchedLines d
    if matched.isEmpty then some (lexicalOrder d)
    else
      match matched.mapM lineTarget with
      | some chapterOrder => some (chapterOrder.map (pjoin d.dir))
      | none => none
  else some (lexicalOrder d)

/-- The list actually used for navigation position lookup: the resolved
order re-sorted in place by navKey, ascending, stable (lines 224 to 229
of the script). -/
def navListOf (d : DirModel) : Option (List String) :=
  (getOrderedMarkdownFiles d).map
    (stableSort (fun a b => navKey a < navKey b))

/-! ## Navigation assembly -/

/-- One navigation fragment as the script builds it: an anchor with a
target and a visible label, a disabled span with a text, or the empty
string (the untouched initial value of the prevLink, nextLink and
tocLink variables). -/
inductive NavFragment where
  | link (href : String) (label : String)
  | disabled (text : String)
  | empty
deriving DecidableEq, Repr

structure PageNav where
  previous : NavFragment
  toc : NavFragment
  next : NavFragment
deriving DecidableEq, Repr

/-- indexOf with the -1 sentinel of JS Array.prototype.indexOf. -/
def findIdxO (x : String) : List String → Option Nat
  | [] => none
  | a :: as => if a = x then some 0 else (findIdxO x as).map (· + 1)

def jsIndexOf (l : List String) (x : String) : Int :=
  match findIdxO x l with
  | some n => n
  | none => -1

/-- Navigation fragments for one chapter page, mirroring lines 230 to
294 of the script: the index-file branch and the regular branch with
its previous, next and toc sub-cases. -/
def navFor (list : List String) (filePath : String) : PageNav :=
  let currentIndex : Int := jsIndexOf list filePath
  let isIndexFile := basename filePath = "index.md"
  if isIndexFile then
    if 1 < list.length then
      let firstChapter := list.find? (fun f => basename f ≠ "index.md")
      let nextL :=
        match firstChapter with
        | some f => NavFragment.link (stripMd (basename f) ++ ".html") "First chapter"
        | none => NavFragment.disabled "No chapters"
      { previous := NavFragment.disabled ""
        toc := NavFragment.disabled "Book Index"
        next := nextL }
    else
      { previous := NavFragment.empty, toc := NavFragment.empty, next := NavFragment.empty }
  else
    let prevL :=
      if 0 < currentIndex then
        let prevFile := (list.get? (currentIndex - 1).toNat).getD ""
        let prevName := if basename prevFile = "index.md" then "Contents" else "Previous"
        NavFragment.link (stripMd (basename prevFile) ++ ".html") prevName
      else NavFragment.disabled ""
    let nextL :=
      if currentIndex < (list.length : Int) - 1 then
        let nextFile := (list.get? (currentIndex + 1).toNat).getD ""
        NavFragment.link (stripMd (basename nextFile) ++ ".html") "Next"
      else NavFragment.disabled "End"
    let tocL :=
      if basename filePath ≠ "index.md" then
        if (list.find? (fun f => basename f = "index.md")).isSome then
          NavFragment.link "index.html" "Table of Contents"
        else NavFragment.disabled "TOC"
      else NavFragment.disabled ""
    { previous := prevL, toc := tocL, next := nextL }

/-- Files of a directory that the recursive scan getMarkdownFiles
(lines 319 to 336) picks up: markdown files not starting with a dot. -/
def processableFile (f : String) : Bool :=
  (!(f.data.head? = some '.')) && isMdExt f

/-- Pages built for one book directory: for every processable file, the
output file name and its navigation fragments; none when the ordering
computation aborts. -/
def buildBook (d : DirModel) : Option (List (String × PageNav)) :=
  match navListOf d with
  | none => none
  | some list =>
    some ((d.files.filter processableFile).map
      (fun f => (stripMd f ++ ".html", navFor list (pjoin d.dir f))))

/-- Test that a navigation fragment is an anchor with the given
target. -/
def isLinkTo (n : NavFragment) (href : String) : Bool :=
  match n with
  | .link h _ => h = href
  | _ => false

def noDigitStr (s : String) : Prop := ∀ c ∈ s.data, jsDigit c = false

instance (s : String) : Decidable (noDigitStr s) :=
  inferInstanceAs (Decidable (∀ c ∈ s.data, jsDigit c = false))

/-! ## Page title -/

/-- Title substituted for the page-title token (lines 192 to 196 and
297 of the script): the trimmed capture of the title regex when it
matches and the trim is nonempty, else the file name without its ".md"
extension. -/
def pageTitle (markdown : String) (fileName : String) : String :=
  let firstH1 :=
    match firstH1Capture markdown.data with
    | some c => (jsTrimL c).asString
    | none => ""
  if firstH1 = "" then stripMd fileName else firstH1

/-! ## TOC extraction (generateTocFromHtml, lines 32 to 85)

The JSDOM parse of the rendered fragment is external to the script, so
the extractor is modelled on an already parsed tree of elements and
text nodes; a parse failure, the exception source the try/catch of the
script guards against, is the none case of the parsed input.  The
DOMPurify sanitisation of the toc markup is likewise external and is
passed as an opaque function. -/

inductive HNode where
  | elem (tag : String) (id : String) (children : List HNode)
  | text (s : String)

structure TocEntry where
  level : Nat
  content : String
  anchor : String
deriving DecidableEq, Repr

structure TocResult where
  tocHtml : String
  tocData : List TocEntry
  updatedHtml : String

def isHeadingTag (t : String) : Bool :=
  t = "h1" || t = "h2" || t = "h3"

/-- Slug generation of line 56: lower-case the text and replace every
run of non-word characters by one hyphen.  The flag records that the
scan is inside a non-word run whose hyphen is already emitted. -/
def slugifyGo : Bool → List Char → List Char
  | _, [] => []
  | inRun, c :: cs =>
    if jsWord c then c :: slugifyGo false cs
    else if inRun then slugifyGo true cs
    else '-' :: slugifyGo true cs

def slugify (s : String) : String :=
  (slugifyGo false (s.data.map Char.toLower)).asString

/-- parseInt(tag.slice(1)) for a heading tag. -/
def headingLevel (tag : String) : Nat :=
  digitsToNat (tag.data.drop 1)

mutual

def textContentN : HNode → List Char
  | .text s => s.data
  | .elem _ _ cs => textContentList cs

def textContentList : List HNode → List Char
  | [] => []
  | n :: ns => textContentN n ++ textContentList ns

end

mutual

def headingCountN : HNode → Nat
  | .text _ => 0
  | .elem tag _ cs => (if isHeadingTag tag then 1 else 0) + headingCountList cs

def headingCountList : List HNode → Nat
  | [] => 0
  | n :: ns => headingCountN n + headingCountList ns

end

mutual

/-- The forEach of lines 53 to 65: in document order, give every
heading lacking an id its slug id, and record one TocEntry per heading
with the id the toc link will use. -/
def patchNode : HNode → HNode × List TocEntry
  | .text s => (.text s, [])
  | .elem tag id cs =>
    let r := patchList cs
    if isHeadingTag tag then
      let t := (textContentList cs).asString
      let anchor := if id = "" then slugify t else id
      (.elem tag anchor r.1, ⟨headingLevel tag, t, anchor⟩ :: r.2)
    else
      (.elem tag id r.1, r.2)

def patchList : List HNode → List HNode × List TocEntry
  | [] => ([], [])
  | n :: ns =>
    let a := patchNode n
    let b := patchList ns
    (a.1 :: b.1, a.2 ++ b.2)

end

mutual

/-- Serialisation of the patched tree as body innerHTML (line 70),
with the id attribute emitted when present. -/
def serializeN : HNode → String
  | .text s => s
  | .elem tag id cs =>
    "<" ++ tag ++ (if id = "" then "" else " id=\"" ++ id ++ "\"") ++ ">" ++
      serializeList cs ++ "</" ++ tag ++ ">"

def serializeList : List HNode → String
  | [] => ""
  | n :: ns => serializeN n ++ serializeList ns

end

/-- The fixed placeholder fragment of lines 40 to 44. -/
def tocEmptyNotice : String :=
  "\n          <div class=\"toc-empty-notice p-4 bg-gray-100 dark:bg-slate-700 rounded-md\">\n            <p class=\"text-sm text-gray-600 dark:text-gray-300\">No table of contents available</p>\n          </div>\n        "

def levelDigit (n : Nat) : String :=
  (Char.ofNat (48 + n)).toString

/-- One toc list item of line 63. -/
def tocEntryLi (e : TocEntry) : String :=
  "<li class=\"toc-item toc-level-" ++ levelDigit e.level ++ "\"><a href=\"#" ++
    e.anchor ++ "\" class=\"toc-link\">" ++ e.content ++ "</a></li>"

/-- generateTocFromHtml (lines 32 to 85): on a parse failure the catch
branch returns an empty toc string, no entries and the original html;
with no H1 to H3 heading the fixed placeholder, no entries and the
original html; otherwise the patched ids, the entry list and the
re-serialised body, with the toc markup passed through the external
sanitiser. -/
def generateTocFromHtml (san : String → String) (parsed : Option (List HNode))
    (html : String) : TocResult :=
  match parsed with
  | none => ⟨"", [], html⟩
  | some doc =>
    if headingCountList doc = 0 then
      ⟨tocEmptyNotice, [], html⟩
    else
      let r := patchList doc
      let toc := "<div class=\"toc\"><ul>" ++ String.join (r.2.map tocEntryLi) ++ "</ul></div>"
      ⟨san toc, r.2, serializeList r.1⟩

/-! ## Page templating -/

/-- The eight placeholder tokens of the template contract. -/
def cssTok : String := "\x7b%TAILWIND_CSS%\x7d"
def contentTok : String := "\x7b%MARKDOWN_CONTENT%\x7d"
def titleTok : String := "\x7b\x7bpage_title\x7d\x7d"
def prevTok : String := "\x7b\x7bnav_previous_link\x7d\x7d"
def tocTok : String := "\x7b\x7bnav_toc_link\x7d\x7d"
def nextTok : String := "\x7b\x7bnav_next_link\x7d\x7d"
def pageTocTok : String := "\x7b%PAGE_TOC%\x7d"
def pageTocDataTok : String := "\x7b%PAGE_TOC_DATA%\x7d"

def containsTok (s pat : String) : Bool := containsL s.data pat.data

/-- Strings free of the opening brace every placeholder token starts
with; ordinary page content and values satisfy this. -/
def noBrace (s : List Char) : Prop := ∀ c ∈ s, c ≠ '\x7b'

instance (s : List Char) : Decidable (noBrace s) :=
  inferInstanceAs (Decidable (∀ c ∈ s, c ≠ '\x7b'))

/-- A character position below the length of both lists where they
disagree; it rules out the first list being a prefix of any extension
of the second. -/
def mismatchWithin : List Char → List Char → Bool
  | p :: ps, c :: cs => p ≠ c || mismatchWithin ps cs
  | _, _ => false

/-- The tails of the placeholder tokens after their opening braces,
used to expose the token constants in cons form. -/
def cssTokTail : String := "%TAILWIND_CSS%\x7d"
def contentTokTail : String := "%MARKDOWN_CONTENT%\x7d"
def titleTokRest : String := "page_title\x7d\x7d"
def prevTokRest : String := "nav_previous_link\x7d\x7d"
def tocTokRest : String := "nav_toc_link\x7d\x7d"
def nextTokRest : String := "nav_next_link\x7d\x7d"
def pageTocTokTail : String := "%PAGE_TOC%\x7d"
def pageTocDataTokTail : String := "%PAGE_TOC_DATA%\x7d"

/-- Template substitution pipeline of the script (lines 215 to 221 and
296 to 302): the CSS and body tokens are substituted with a plain
string pattern, hence only at their first occurrence and only when
present; the remaining six tokens are substituted with global regexes,
hence at every occurrence, in the written order. -/
def processTemplate (template css bodyHtml title prev toc next tocHtml tocData : String) : String :=
  let f := template.data
  let f := if containsL f cssTok.data then replaceFirstL cssTok.data css.data f else f
  let f := if containsL f contentTok.data then replaceFirstL contentTok.data bodyHtml.data f else f
  let f := replaceAllL titleTok.data title.data f
  let f := replaceAllL prevTok.data prev.data f
  let f := replaceAllL tocTok.data toc.data f
  let f := replaceAllL nextTok.data next.data f
  let f := replaceAllL pageTocTok.data tocHtml.data f
  let f := replaceAllL pageTocDataTok.data tocData.data f
  f.asString

/-! ## Definitions following the words of the specification

The following definitions are NOT translations of the source: they
follow the words of the spec sentences behind the claims, and are used
only to compare the spec reading with the behaviour of the code. -/

/-- Modelled from the claim wording of C1: substitution that is global
for every one of the eight tokens. -/
def claimProcessTemplate (template css bodyHtml title prev toc next tocHtml tocData : String) : String :=
  let f := template.data
  let f := replaceAllL cssTok.data css.data f
  let f := replaceAllL contentTok.data bodyHtml.data f
  let f := replaceAllL titleTok.data title.data f
  let f := replaceAllL prevTok.data prev.data f
  let f := replaceAllL tocTok.data toc.data f
  let f := replaceAllL nextTok.data next.data f
  let f := replaceAllL pageTocTok.data tocHtml.data f
  let f := replaceAllL pageTocDataTok.data tocData.data f
  f.asString

/-- Helper for the claim reading of a manifest line: scan to the first
close-bracket open-paren pair, then read the target up to the next
close paren and require it to end in ".md". -/
def claimAfterLabel : List Char → Option (List Char)
  | [] => none
  | ']' :: '(' :: cs2 =>
    let run := cs2.takeWhile (fun x => x ≠ ')')
    if (cs2.drop run.length).head? = some ')' &&
        ('.' :: 'm' :: 'd' :: []).isSuffixOf run && !run.isEmpty then
      some run
    else none
  | _ :: cs => claimAfterLabel cs

/-- Modelled from the claim wording of C5: the chapter reference of a
manifest line read as a bullet, a bracketed label closed by the first
following close-bracket open-paren pair, and a parenthesised target
with no close paren inside that ends in ".md". -/
def claimLineTarget (line : List Char) : Option (List Char) :=
  match line.dropWhile jsWs with
  | '*' :: rest =>
    if (rest.takeWhile jsWs).isEmpty then none
    else
      match rest.dropWhile jsWs with
      | '[' :: rest2 => claimAfterLabel rest2
      | _ => none
  | _ => none

/-- Modelled from the claim wording of C5: resolved chapter order with
targets read as claimLineTarget. -/
def claimResolvedOrder (d : DirModel) : List String :=
  if "index.md" ∈ d.files then
    let targets := (splitOnCharL '\n' d.indexContent.data).filterMap claimLineTarget
    if targets.isEmpty then lexicalOrder d
    else (targets.map List.asString).map (pjoin d.dir)
  else lexicalOrder d

/-- Modelled from the claim wording of C6: position lookup list sorted
by the first digit run of each FILE NAME (not of the full path). -/
def claimNavListOf (d : DirModel) : Option (List String) :=
  (getOrderedMarkdownFiles d).map
    (stableSort (fun a b => navKey (basename a) < navKey (basename b)))

/-- Modelled from the claim wording of C9: a level-1 heading line is a
single line consisting of a hash, at least one whitespace character and
a nonempty rest, all inside the line; its text is the trimmed rest. -/
def claimHeadingText (line : List Char) : Option (List Char) :=
  match line with
  | '#' :: rest =>
    if (rest.takeWhile jsWs).isEmpty then none
    else
      match rest.drop (rest.takeWhile jsWs).length with
      | [] => none
      | c :: cs => some (jsTrimL (c :: cs))
  | _ => none

/-- Modelled from the claim wording of C9: the page title is the text
of the first level-1 heading line when one exists, else the file name
without extension. -/
def claimTitle (markdown : String) (fileName : String) : String :=
  match (splitOnCharL '\n' markdown.data).findSome? claimHeadingText with
  | some t => t.asString
  | none => stripMd fileName


/-! ## General helper lemmas -/

theorem asString_data (s : String) : s.data.asString = s := by
  cases s
  rfl

theorem string_data_inj {a b : String} (h : a.data = b.data) : a = b := by
  cases a
  cases b
  simp only at h
  rw [h]

theorem pjoin_right_inj (dir : String) {a b : String}
    (h : pjoin dir a = pjoin dir b) : a = b := by
  apply string_data_inj
  have hd : (pjoin dir a).data = (pjoin dir b).data := by rw [h]
  simp only [pjoin, String.data_append] at hd
  exact List.append_cancel_left hd

theorem findIdxO_eq_none (x : String) (l : List String) (h : x ∉ l) :
    findIdxO x l = none := by
  induction l with
  | nil => rfl
  | cons a as ih =>
    have hax : ¬ a = x := fun hax => h (hax ▸ List.mem_cons_self a as)
    have hx : x ∉ as := fun hx => h (List.mem_cons_of_mem a hx)
    simp [findIdxO, hax, ih hx]

theorem findIdxO_eq_some (x : String) (l : List String) (i : Nat)
    (hnd : l.Nodup) (hg : l.get? i = some x) : findIdxO x l = some i := by
  induction l generalizing i with
  | nil => simp [List.get?] at hg
  | cons a as ih =>
    cases i with
    | zero =>
      simp only [List.get?] at hg
      cases hg
      simp [findIdxO]
    | succ j =>
      simp only [List.get?] at hg
      have hmem : x ∈ as := List.get?_mem hg
      have hax : ¬ a = x := by
        intro hax
        exact ((List.nodup_cons.mp hnd).1) (hax ▸ hmem)
      simp [findIdxO, hax, ih j (List.nodup_cons.mp hnd).2 hg]

theorem jsIndexOf_eq_neg_one (l : List String) (x : String) (h : x ∉ l) :
    jsIndexOf l x = -1 := by
  simp [jsIndexOf, findIdxO_eq_none x l h]

theorem jsIndexOf_eq_coe (l : List String) (x : String) (i : Nat)
    (hnd : l.Nodup) (hg : l.get? i = some x) : jsIndexOf l x = (i : Int) := by
  simp [jsIndexOf, findIdxO_eq_some x l i hnd hg]

/-! ## C9: the page title -/

/-- C9 counterexample: the whitespace class of the title regex also
matches newlines, so for the source consisting of a lone hash line
followed by the line Hello the script titles the page Hello, while
under the claim reading no level-1 heading line exists and the title
should be the file name stem chap. -/
theorem c9_counterexample :
    pageTitle "#\nHello" "chap.md" = "Hello" ∧
    claimTitle "#\nHello" "chap.md" = "chap" ∧
    ("Hello" : String) ≠ "chap" := by
  decide

theorem stripMd_ne_empty (f : String) (h : processableFile f = true) :
    stripMd f ≠ "" := by
  have hsuf : ('.' :: 'm' :: 'd' :: []).isSuffixOf f.data = true := by
    simp only [processableFile, isMdExt, Bool.and_eq_true] at h
    exact h.2.1
  have hlen : 4 ≤ f.data.length := by
    simp only [processableFile, isMdExt, Bool.and_eq_true, decide_eq_true_eq] at h
    exact h.2.2
  have hne : f ≠ ".md" := by
    intro he
    rw [he] at hlen
    simp at hlen
  unfold stripMd
  rw [if_pos (by simp [hne, hsuf])]
  intro he
  have hd : f.data.take (f.data.length - 3) = [] := congrArg String.data he
  have htake : (f.data.take (f.data.length - 3)).length = f.data.length - 3 := by
    rw [List.length_take]
    omega
  rw [hd] at htake
  simp only [List.length_nil] at htake
  omega

/-- C9 amended: the substituted title is the trimmed capture of the
multiline title regex (whose whitespace may span line breaks) when the
regex matches and the trim is nonempty, else the file name without its
extension; for every file the recursive scan processes, the title is
never the empty string. -/
theorem c9_title_rule (markdown fileName : String)
    (h : processableFile fileName = true) :
    pageTitle markdown fileName =
      (match firstH1Capture markdown.data with
       | none => stripMd fileName
       | some c =>
         if (jsTrimL c).asString = "" then stripMd fileName
         else (jsTrimL c).asString) ∧
    pageTitle markdown fileName ≠ "" := by
  constructor
  · unfold pageTitle
    cases hc : firstH1Capture markdown.data with
    | none => simp
    | some c =>
      by_cases he : (jsTrimL c).asString = "" <;> simp [he]
  · unfold pageTitle
    cases hc : firstH1Capture markdown.data with
    | none =>
      exact stripMd_ne_empty fileName h
    | some c =>
      by_cases he : (jsTrimL c).asString = ""
      · simp only [he, if_pos rfl]
        exact stripMd_ne_empty fileName h
      · simp only [if_neg he]
        exact he

theorem c9_title_rule_witness :
    processableFile "chap.md" = true ∧
    pageTitle "#\nHello" "chap.md" =
      (match firstH1Capture ("#\nHello" : String).data with
       | none => stripMd "chap.md"
       | some c =>
         if (jsTrimL c).asString = "" then stripMd "chap.md"
         else (jsTrimL c).asString) ∧
    pageTitle "#\nHello" "chap.md" ≠ "" :=
  ⟨by decide, (c9_title_rule "#\nHello" "chap.md" (by decide)).1,
    (c9_title_rule "#\nHello" "chap.md" (by decide)).2⟩

/-! ## C4: navigation symmetry -/

/-- C4 counterexample: with the resolved order [aaa.md, index.md] the
adjacent pair A = aaa.md, B = index.md violates the claimed symmetry:
the page of B takes the index branch, so its previous fragment is a
disabled placeholder instead of a link to aaa.html. -/
theorem c4_counterexample :
    navListOf ⟨"data/book", ["aaa.md", "index.md"], "# T"⟩ =
      some ["data/book/aaa.md", "data/book/index.md"] ∧
    (navFor ["data/book/aaa.md", "data/book/index.md"] "data/book/aaa.md").next =
      NavFragment.link "index.html" "Next" ∧
    (navFor ["data/book/aaa.md", "data/book/index.md"] "data/book/index.md").previous =
      NavFragment.disabled "" ∧
    isLinkTo
      (navFor ["data/book/aaa.md", "data/book/index.md"] "data/book/index.md").previous
      "aaa.html" = false := by
  decide

/-- C4 amended: for adjacent entries A at i and B at i+1 of a
duplicate-free navigation list, the next fragment of A targets the
output name of B whenever A is not the index file (whether or not B
is), and the previous fragment of B targets the output name of A
whenever B is not the index file (whether or not A is) - labelled
Contents when A is the index file and Previous otherwise. -/
theorem c4_navigation_symmetry (list : List String) (i : Nat) (A B : String)
    (hnd : list.Nodup) (hA : list.get? i = some A) (hB : list.get? (i + 1) = some B) :
    (basename A ≠ "index.md" →
      (navFor list A).next = NavFragment.link (stripMd (basename B) ++ ".html") "Next") ∧
    (basename B ≠ "index.md" →
      (navFor list B).previous =
        NavFragment.link (stripMd (basename A) ++ ".html")
          (if basename A = "index.md" then "Contents" else "Previous")) := by
  have hidxA : jsIndexOf list A = (i : Int) := jsIndexOf_eq_coe list A i hnd hA
  have hidxB : jsIndexOf list B = ((i + 1 : Nat) : Int) :=
    jsIndexOf_eq_coe list B (i + 1) hnd hB
  obtain ⟨hlen, -⟩ := List.get?_eq_some.mp hB
  constructor
  · intro hAx
    simp only [navFor, if_neg hAx, hidxA]
    have hcond : (i : Int) < (list.length : Int) - 1 := by
      have : ((i + 1 : Nat) : Int) < (list.length : Int) := by exact_mod_cast hlen
      omega
    have htn : ((i : Int) + 1).toNat = i + 1 := by omega
    simp only [if_pos hcond, htn, hB, Option.getD_some]
  · intro hBx
    simp only [navFor, if_neg hBx, hidxB]
    have hpos : (0 : Int) < ((i + 1 : Nat) : Int) := by
      push_cast
      omega
    have htn : (((i + 1 : Nat) : Int) - 1).toNat = i := by
      push_cast
      omega
    simp only [if_pos hpos, htn, hA, Option.getD_some]

theorem c4_navigation_symmetry_witness :
    (["data/b/x1.md", "data/b/x2.md"] : List String).Nodup ∧
    (["data/b/x1.md", "data/b/x2.md"] : List String).get? 0 = some "data/b/x1.md" ∧
    (["data/b/x1.md", "data/b/x2.md"] : List String).get? 1 = some "data/b/x2.md" ∧
    (navFor ["data/b/x1.md", "data/b/x2.md"] "data/b/x1.md").next =
      NavFragment.link (stripMd (basename "data/b/x2.md") ++ ".html") "Next" ∧
    (navFor ["data/b/x1.md", "data/b/x2.md"] "data/b/x2.md").previous =
      NavFragment.link (stripMd (basename "data/b/x1.md") ++ ".html")
        (if basename "data/b/x1.md" = "index.md" then "Contents" else "Previous") ∧
    (["data/b/index.md", "data/b/x2.md"] : List String).Nodup ∧
    (navFor ["data/b/index.md", "data/b/x2.md"] "data/b/x2.md").previous =
      NavFragment.link (stripMd (basename "data/b/index.md") ++ ".html")
        (if basename "data/b/index.md" = "index.md" then "Contents" else "Previous") := by
  have h := c4_navigation_symmetry ["data/b/x1.md", "data/b/x2.md"] 0
    "data/b/x1.md" "data/b/x2.md" (by decide) (by decide) (by decide)
  have hc := c4_navigation_symmetry ["data/b/index.md", "data/b/x2.md"] 0
    "data/b/index.md" "data/b/x2.md" (by decide) (by decide) (by decide)
  exact ⟨by decide, by decide, by decide, h.1 (by decide), h.2 (by decide),
    by decide, hc.2 (by decide)⟩

/-! ## C5: manifest precedence -/

/-- C5 counterexample: the manifest line star bracket a bracket paren x
paren dot md paren passes the filter regex of line 157 but makes the
extraction of line 158 return null, so the script throws where the
claim prescribes an order; the claim reading of the same manifest
resolves the second line to a.md. -/
theorem c5_counterexample :
    getOrderedMarkdownFiles
        ⟨"data/book", ["a.md", "index.md"], "* [a](x).md)\n* [A](a.md)"⟩ = none ∧
    claimResolvedOrder
        ⟨"data/book", ["a.md", "index.md"], "* [a](x).md)\n* [A](a.md)"⟩ =
      ["data/book/a.md"] := by
  decide

/-- C5 amended: with no index.md, or an index.md none of whose lines
passes the filter, the resolved order is the lexical sort of the
markdown file names of the directory; when some lines pass the filter
and every such line yields an extraction target, the resolved order is
exactly those targets in document order, and unlisted files are
excluded from it; when some passing line yields no extraction target
the build aborts. -/
theorem c5_manifest_precedence (d : DirModel) :
    ("index.md" ∉ d.files → getOrderedMarkdownFiles d = some (lexicalOrder d)) ∧
    ("index.md" ∈ d.files → matchedLines d = [] →
      getOrderedMarkdownFiles d = some (lexicalOrder d)) ∧
    (∀ ts, "index.md" ∈ d.files → matchedLines d ≠ [] →
      (matchedLines d).mapM lineTarget = some ts →
      getOrderedMarkdownFiles d = some (ts.map (pjoin d.dir)) ∧
      ∀ f ∈ d.files, f ∉ ts → pjoin d.dir f ∉ ts.map (pjoin d.dir)) ∧
    ("index.md" ∈ d.files → (matchedLines d).mapM lineTarget = none →
      getOrderedMarkdownFiles d = none) := by
  refine ⟨?_, ?_, ?_, ?_⟩
  · intro h
    simp [getOrderedMarkdownFiles, h]
  · intro h hml
    simp [getOrderedMarkdownFiles, h, hml]
  · intro ts h hne hmap
    constructor
    · have hie : ¬ ((matchedLines d).isEmpty = true) := by
        simpa [List.isEmpty_iff] using hne
      simp only [getOrderedMarkdownFiles, if_pos h, if_neg hie, hmap]
    · intro f _ hnotin hmem
      obtain ⟨t, ht, heq⟩ := List.mem_map.mp hmem
      exact hnotin (pjoin_right_inj d.dir heq ▸ ht)
  · intro h hmap
    have hne : matchedLines d ≠ [] := by
      intro hnil
      rw [hnil] at hmap
      rw [show List.mapM lineTarget ([] : List String) = some [] from rfl] at hmap
      exact Option.noConfusion hmap
    have hie : ¬ ((matchedLines d).isEmpty = true) := by
      simpa [List.isEmpty_iff] using hne
    simp only [getOrderedMarkdownFiles, if_pos h, if_neg hie, hmap]

theorem c5_manifest_precedence_witness :
    ("index.md" ∈
      (⟨"data/book", ["a.md", "b.md", "c.md", "index.md"],
        "* [B](b.md)\n* [A](a.md)"⟩ : DirModel).files) ∧
    matchedLines ⟨"data/book", ["a.md", "b.md", "c.md", "index.md"],
        "* [B](b.md)\n* [A](a.md)"⟩ ≠ [] ∧
    (matchedLines ⟨"data/book", ["a.md", "b.md", "c.md", "index.md"],
        "* [B](b.md)\n* [A](a.md)"⟩).mapM lineTarget = some ["b.md", "a.md"] ∧
    getOrderedMarkdownFiles ⟨"data/book", ["a.md", "b.md", "c.md", "index.md"],
        "* [B](b.md)\n* [A](a.md)"⟩ =
      some (["b.md", "a.md"].map (pjoin "data/book")) ∧
    pjoin "data/book" "c.md" ∉ (["b.md", "a.md"].map (pjoin "data/book")) := by
  have h := (c5_manifest_precedence
    ⟨"data/book", ["a.md", "b.md", "c.md", "index.md"],
      "* [B](b.md)\n* [A](a.md)"⟩).2.2.1 ["b.md", "a.md"]
    (by decide) (by decide) (by decide)
  exact ⟨by decide, by decide, by decide, h.1,
    h.2 "c.md" (by decide) (by decide)⟩

/-! ## C6: the numeric navigation re-sort -/

/-- C6 counterexample: in a directory whose own name contains a digit
the sort key of every chapter is the digit run of the directory, so
chapter-10.md keeps its place before chapter-2.md, while the claim
reading (first digit run of the file name) puts chapter-2.md first. -/
theorem c6_counterexample :
    navListOf ⟨"data/book2", ["chapter-10.md", "chapter-2.md"], ""⟩ =
      some ["data/book2/chapter-10.md", "data/book2/chapter-2.md"] ∧
    claimNavListOf ⟨"data/book2", ["chapter-10.md", "chapter-2.md"], ""⟩ =
      some ["data/book2/chapter-2.md", "data/book2/chapter-10.md"] ∧
    navListOf ⟨"data/book2", ["chapter-10.md", "chapter-2.md"], ""⟩ ≠
      claimNavListOf ⟨"data/book2", ["chapter-10.md", "chapter-2.md"], ""⟩ := by
  decide

theorem insertStable_map (lt : β → β → Bool) (g : α → β) (x : α) (l : List α) :
    insertStable lt (g x) (l.map g) =
      (insertStable (fun a b => lt (g a) (g b)) x l).map g := by
  induction l with
  | nil => rfl
  | cons a as ih =>
    simp only [List.map_cons, insertStable]
    by_cases h : lt (g a) (g x) <;> simp [h, ih]

theorem stableSort_map (lt : β → β → Bool) (g : α → β) (l : List α) :
    stableSort lt (l.map g) = (stableSort (fun a b => lt (g a) (g b)) l).map g := by
  induction l with
  | nil => rfl
  | cons a as ih => simp only [List.map_cons, stableSort, ih, insertStable_map]

theorem firstDigitRun_append (s t : List Char) (h : ∀ c ∈ s, jsDigit c = false) :
    firstDigitRun (s ++ t) = firstDigitRun t := by
  induction s with
  | nil => rfl
  | cons a as ih =>
    have ha : jsDigit a = false := h a (List.mem_cons_self a as)
    simp only [List.cons_append, firstDigitRun, ha, Bool.false_eq_true, if_false]
    exact ih (fun c hc => h c (List.mem_cons_of_mem a hc))

theorem navKey_pjoin (dir f : String) (h : noDigitStr dir) :
    navKey (pjoin dir f) = navKey f := by
  unfold navKey
  have hdata : (pjoin dir f).data = (dir.data ++ ['/']) ++ f.data := by
    simp [pjoin, String.data_append]
  rw [hdata, firstDigitRun_append]
  intro c hc
  rcases List.mem_append.mp hc with h1 | h2
  · exact h c h1
  · have : c = '/' := by simpa using h2
    rw [this]
    decide

/-- C6 amended: the position lookup list is the resolved order stably
re-sorted by the first digit run of each FULL PATH; when the directory
path contains no digit this coincides with sorting by the first digit
run of each file name, which is the behaviour the claim describes, but
a digit in the directory path makes every key equal to that digit run
and the stable sort leaves the resolved order unchanged. -/
theorem c6_numeric_sort (d : DirModel) (names : List String)
    (hord : getOrderedMarkdownFiles d = some (names.map (pjoin d.dir)))
    (hdig : noDigitStr d.dir) :
    navListOf d =
      some ((stableSort (fun a b => navKey a < navKey b) names).map (pjoin d.dir)) := by
  have hstep : navListOf d =
      some (stableSort (fun a b => navKey a < navKey b) (names.map (pjoin d.dir))) := by
    unfold navListOf
    rw [hord]
    rfl
  rw [hstep]
  congr 1
  rw [stableSort_map]
  simp only [navKey_pjoin _ _ hdig]

theorem c6_numeric_sort_witness :
    getOrderedMarkdownFiles ⟨"data/book", ["chapter-10.md", "chapter-2.md"], ""⟩ =
      some (["chapter-10.md", "chapter-2.md"].map (pjoin "data/book")) ∧
    noDigitStr "data/book" ∧
    navListOf ⟨"data/book", ["chapter-10.md", "chapter-2.md"], ""⟩ =
      some ((stableSort (fun a b => navKey a < navKey b)
        ["chapter-10.md", "chapter-2.md"]).map (pjoin "data/book")) :=
  ⟨by decide, by decide,
   c6_numeric_sort ⟨"data/book", ["chapter-10.md", "chapter-2.md"], ""⟩
    ["chapter-10.md", "chapter-2.md"] (by decide) (by decide)⟩

/-! ## C8: totality of the TOC extractor -/

/-- C8: the TOC extractor is total and never aborts the build: with no
H1, H2 or H3 heading in the parsed fragment it returns the fixed
placeholder fragment, an empty entry sequence and the input HTML
unchanged, and on a parse failure (the exception source guarded by the
try/catch) it returns an empty toc string, no entries and the original
unmodified HTML.  Totality over all inputs is expressed by the
statement holding for every sanitiser, every parse outcome and every
input string. -/
theorem c8_toc_extractor_total (san : String → String)
    (parsed : Option (List HNode)) (html : String) :
    (parsed = none →
      generateTocFromHtml san parsed html = ⟨"", [], html⟩) ∧
    (∀ doc, parsed = some doc → headingCountList doc = 0 →
      generateTocFromHtml san parsed html = ⟨tocEmptyNotice, [], html⟩) := by
  constructor
  · rintro rfl
    rfl
  · rintro doc rfl h
    simp [generateTocFromHtml, h]

theorem c8_toc_extractor_total_witness :
    generateTocFromHtml (fun s => s) none "<p>x</p>" = ⟨"", [], "<p>x</p>"⟩ ∧
    generateTocFromHtml (fun s => s) (some [HNode.text "plain"]) "plain" =
      ⟨tocEmptyNotice, [], "plain"⟩ :=
  ⟨(c8_toc_extractor_total (fun s => s) none "<p>x</p>").1 rfl,
   (c8_toc_extractor_total (fun s => s) (some [HNode.text "plain"]) "plain").2
      [HNode.text "plain"] rfl (by decide)⟩

/-! ## C2: the toc navigation fragment -/

/-- C2 counterexample: in a book directory that does contain index.md
but whose manifest lists only a.md, the page of a.md gets a disabled
toc fragment, not a link to index.html — the script tests membership of
index.md in the resolved list, not existence in the directory. -/
theorem c2_counterexample :
    "index.md" ∈ (⟨"data/book", ["a.md", "index.md"], "* [A](a.md)"⟩ : DirModel).files ∧
    navListOf ⟨"data/book", ["a.md", "index.md"], "* [A](a.md)"⟩ = some ["data/book/a.md"] ∧
    (navFor ["data/book/a.md"] "data/book/a.md").toc = NavFragment.disabled "TOC" ∧
    isLinkTo (navFor ["data/book/a.md"] "data/book/a.md").toc "index.html" = false := by
  decide

/-- C2 amended: for a chapter that is not index.md, the toc fragment is
a link to index.html if and only if some entry of the navigation list
(the resolved order, not the directory) has base name index.md;
otherwise it is the disabled TOC placeholder. -/
theorem c2_toc_link_rule (list : List String) (p : String)
    (h : basename p ≠ "index.md") :
    ((navFor list p).toc = NavFragment.link "index.html" "Table of Contents" ↔
      ∃ f ∈ list, basename f = "index.md") ∧
    ((navFor list p).toc = NavFragment.link "index.html" "Table of Contents" ∨
      (navFor list p).toc = NavFragment.disabled "TOC") := by
  have hnav : (navFor list p).toc =
      if (list.find? (fun f => basename f = "index.md")).isSome then
        NavFragment.link "index.html" "Table of Contents"
      else NavFragment.disabled "TOC" := by
    simp only [navFor, if_neg h, if_pos h]
  by_cases hs : (list.find? (fun f => basename f = "index.md")).isSome
  · rw [hnav, if_pos hs]
    refine ⟨⟨fun _ => ?_, fun _ => rfl⟩, Or.inl rfl⟩
    have := List.find?_isSome.mp hs
    simpa using this
  · rw [hnav, if_neg hs]
    refine ⟨⟨fun hlink => absurd hlink (by simp), fun hex => absurd ?_ hs⟩, Or.inr rfl⟩
    exact List.find?_isSome.mpr (by simpa using hex)

theorem c2_toc_link_rule_witness :
    basename "data/book/a.md" ≠ "index.md" ∧
    (((navFor ["data/book/a.md", "data/book/index.md"] "data/book/a.md").toc =
        NavFragment.link "index.html" "Table of Contents" ↔
      ∃ f ∈ ["data/book/a.md", "data/book/index.md"], basename f = "index.md") ∧
    ((navFor ["data/book/a.md", "data/book/index.md"] "data/book/a.md").toc =
        NavFragment.link "index.html" "Table of Contents" ∨
      (navFor ["data/book/a.md", "data/book/index.md"] "data/book/a.md").toc =
        NavFragment.disabled "TOC")) :=
  ⟨by decide,
   c2_toc_link_rule ["data/book/a.md", "data/book/index.md"] "data/book/a.md" (by decide)⟩

/-! ## C3: the page generated from index.md -/

/-- C3 counterexample: for a book directory containing only index.md
the resolved list has one element, so the script leaves all three
fragments as empty strings — previous and toc are not disabled
placeholders (no placeholder is present at all) and next is not a
disabled no-chapters placeholder. -/
theorem c3_counterexample :
    buildBook ⟨"data/book", ["index.md"], "# T"⟩ =
      some [("index.html",
              { previous := NavFragment.empty
                toc := NavFragment.empty
                next := NavFragment.empty })] ∧
    NavFragment.empty ≠ NavFragment.disabled "" ∧
    NavFragment.empty ≠ NavFragment.disabled "No chapters" := by
  decide

/-- C3 amended: for the page generated from index.md, when the
navigation list has more than one element the previous and toc
fragments are disabled placeholders and next links to the first
non-index element, or is the disabled no-chapters placeholder if every
element is index.md; when the list has at most one element all three
fragments are empty strings. -/
theorem c3_index_navigation (list : List String) (p : String)
    (h : basename p = "index.md") :
    (list.length ≤ 1 →
      navFor list p =
        { previous := NavFragment.empty, toc := NavFragment.empty,
          next := NavFragment.empty }) ∧
    (1 < list.length →
      (navFor list p).previous = NavFragment.disabled "" ∧
      (navFor list p).toc = NavFragment.disabled "Book Index" ∧
      (∀ f, list.find? (fun g => basename g ≠ "index.md") = some f →
        (navFor list p).next =
          NavFragment.link (stripMd (basename f) ++ ".html") "First chapter") ∧
      (list.find? (fun g => basename g ≠ "index.md") = none →
        (navFor list p).next = NavFragment.disabled "No chapters")) := by
  constructor
  · intro hlen
    have hlt : ¬ 1 < list.length := by omega
    simp only [navFor, if_pos h, if_neg hlt]
  · intro hlen
    refine ⟨?_, ?_, ?_, ?_⟩
    · simp only [navFor, if_pos h, if_pos hlen]
    · simp only [navFor, if_pos h, if_pos hlen]
    · intro f hf
      simp only [navFor, if_pos h, if_pos hlen, hf]
    · intro hf
      simp only [navFor, if_pos h, if_pos hlen, hf]

theorem c3_index_navigation_witness :
    basename "data/book/index.md" = "index.md" ∧
    (1 < ([("data/book/index.md" : String), "data/book/a.md"]).length) ∧
    (navFor ["data/book/index.md", "data/book/a.md"] "data/book/index.md").previous =
      NavFragment.disabled "" ∧
    (navFor ["data/book/index.md", "data/book/a.md"] "data/book/index.md").toc =
      NavFragment.disabled "Book Index" ∧
    (navFor ["data/book/index.md", "data/book/a.md"] "data/book/index.md").next =
      NavFragment.link "a.html" "First chapter" := by
  have h := (c3_index_navigation ["data/book/index.md", "data/book/a.md"]
      "data/book/index.md" (by decide)).2 (by decide)
  refine ⟨by decide, by decide, h.1, h.2.1, ?_⟩
  have := h.2.2.1 "data/book/a.md" (by decide)
  simpa using this

/-! ## C10: chapters absent from the manifest order -/

/-- C10 counterexample: index.md itself is a chapter file absent from
the manifest-derived order of its book; its page is generated, and with
a one-element list the script emits empty fragments, so previous is not
a disabled placeholder and next does not link to the first element of
the order. -/
theorem c10_counterexample :
    buildBook ⟨"data/book", ["a.md", "index.md"], "* [A](a.md)"⟩ =
      some [("a.html",
              { previous := NavFragment.disabled ""
                toc := NavFragment.disabled "TOC"
                next := NavFragment.disabled "End" }),
            ("index.html",
              { previous := NavFragment.empty
                toc := NavFragment.empty
                next := NavFragment.empty })] ∧
    pjoin "data/book" "index.md" ∉ ["data/book/a.md"] ∧
    (navFor ["data/book/a.md"] "data/book/index.md").previous = NavFragment.empty ∧
    isLinkTo (navFor ["data/book/a.md"] "data/book/index.md").next "a.html" = false := by
  decide

/-- C10 amended: for every NON-index chapter file present in the
directory but absent from the navigation list, a page is generated, its
previous fragment is the disabled placeholder, and its next fragment
links to the first element of the (numerically re-sorted) navigation
list whenever that list is nonempty; an absent index.md instead takes
the index branch and gets empty fragments when the list has at most one
element. -/
theorem c10_unlisted_chapter (d : DirModel) (f : String) (list : List String)
    (hmem : f ∈ d.files) (hproc : processableFile f = true)
    (hne : basename (pjoin d.dir f) ≠ "index.md")
    (hlist : navListOf d = some list) (habs : pjoin d.dir f ∉ list)
    (hnonempty : list ≠ []) :
    (∃ pages, buildBook d = some pages ∧
      (stripMd f ++ ".html", navFor list (pjoin d.dir f)) ∈ pages) ∧
    (navFor list (pjoin d.dir f)).previous = NavFragment.disabled "" ∧
    (∃ g, list.head? = some g ∧
      (navFor list (pjoin d.dir f)).next =
        NavFragment.link (stripMd (basename g) ++ ".html") "Next") := by
  have hidx : jsIndexOf list (pjoin d.dir f) = -1 :=
    jsIndexOf_eq_neg_one list (pjoin d.dir f) habs
  obtain ⟨g, hg⟩ : ∃ g, list.head? = some g := by
    cases list with
    | nil => exact absurd rfl hnonempty
    | cons a as => exact ⟨a, rfl⟩
  refine ⟨?_, ?_, g, hg, ?_⟩
  · refine ⟨(d.files.filter processableFile).map
      (fun x => (stripMd x ++ ".html", navFor list (pjoin d.dir x))), ?_, ?_⟩
    · simp [buildBook, hlist]
    · exact List.mem_map_of_mem _ (List.mem_filter.mpr ⟨hmem, hproc⟩)
  · have h0 : ¬ (0 : Int) < jsIndexOf list (pjoin d.dir f) := by
      rw [hidx]; decide
    simp only [navFor, if_neg hne, hidx]
    norm_num
  · have hlen : (0 : Int) < (list.length : Int) := by
      have := List.length_pos.mpr hnonempty
      exact_mod_cast this
    have hget : list.get? ((-1 + 1 : Int)).toNat = some g := by
      have : ((-1 + 1 : Int)).toNat = 0 := by decide
      rw [this]
      cases list with
      | nil => exact absurd rfl hnonempty
      | cons a as => simpa [List.get?] using hg
    simp only [navFor, if_neg hne, hidx]
    have hcond : (-1 : Int) < (list.length : Int) - 1 := by omega
    simp only [if_pos hcond, hget, Option.getD_some]

theorem c10_unlisted_chapter_witness :
    ("extra.md" ∈
      (⟨"data/book", ["extra.md", "index.md"], "* [A](a.md)"⟩ : DirModel).files) ∧
    navListOf ⟨"data/book", ["extra.md", "index.md"], "* [A](a.md)"⟩ =
      some ["data/book/a.md"] ∧
    ((∃ pages, buildBook ⟨"data/book", ["extra.md", "index.md"], "* [A](a.md)"⟩ =
        some pages ∧
      ("extra.html",
        navFor ["data/book/a.md"] (pjoin "data/book" "extra.md")) ∈ pages) ∧
    (navFor ["data/book/a.md"] (pjoin "data/book" "extra.md")).previous =
      NavFragment.disabled "" ∧
    (∃ g, (["data/book/a.md"] : List String).head? = some g ∧
      (navFor ["data/book/a.md"] (pjoin "data/book" "extra.md")).next =
        NavFragment.link (stripMd (basename g) ++ ".html") "Next")) :=
  ⟨by decide, by decide,
   c10_unlisted_chapter ⟨"data/book", ["extra.md", "index.md"], "* [A](a.md)"⟩
     "extra.md" ["data/book/a.md"] (by decide) (by decide) (by decide)
     (by decide) (by decide) (by decide)⟩

/-! ## C1: placeholder substitution

Lemma kit for left-to-right literal string replacement over strings
split into brace-free segments and token occurrences. -/

theorem nil_isPrefixOf (t : List Char) : ([] : List Char).isPrefixOf t = true := by
  cases t <;> rfl

theorem cons_isPrefixOf_cons (a b : Char) (as bs : List Char) :
    (a :: as).isPrefixOf (b :: bs) = ((a == b) && as.isPrefixOf bs) := rfl

theorem containsL_cons (c : Char) (cs pat : List Char) :
    containsL (c :: cs) pat = (pat.isPrefixOf (c :: cs) || containsL cs pat) := rfl

theorem isPrefixOf_self_append (p t : List Char) : p.isPrefixOf (p ++ t) = true := by
  induction p with
  | nil => exact nil_isPrefixOf t
  | cons a as ih => simp [cons_isPrefixOf_cons, ih]

theorem isPrefixOf_cons_ne {p c : Char} (ps cs : List Char) (h : c ≠ p) :
    (p :: ps).isPrefixOf (c :: cs) = false := by
  simp [List.isPrefixOf]
  intro he
  exact absurd he.symm h

theorem not_prefix_of_mismatch (pat : List Char) (u t : List Char)
    (h : mismatchWithin pat u = true) : pat.isPrefixOf (u ++ t) = false := by
  induction pat generalizing u with
  | nil =>
    cases u <;> simp [mismatchWithin] at h
  | cons p ps ih =>
    cases u with
    | nil => simp [mismatchWithin] at h
    | cons c cs =>
      simp only [mismatchWithin, Bool.or_eq_true, decide_eq_true_eq] at h
      rcases h with h | h
      · exact isPrefixOf_cons_ne ps (cs ++ t) (Ne.symm h)
      · simp [List.isPrefixOf, ih cs h]

theorem containsL_here (pr : List Char) (t : List Char) :
    containsL (('\x7b' :: pr) ++ t) ('\x7b' :: pr) = true := by
  rw [List.cons_append, containsL_cons]
  rw [show '\x7b' :: (pr ++ t) = ('\x7b' :: pr) ++ t from rfl]
  rw [isPrefixOf_self_append]
  rfl

theorem containsL_noBrace_skip {s : List Char} (h : noBrace s) (pr t : List Char) :
    containsL (s ++ t) ('\x7b' :: pr) = containsL t ('\x7b' :: pr) := by
  induction s with
  | nil => rfl
  | cons c cs ih =>
    have hc : c ≠ '\x7b' := h c (List.mem_cons_self c cs)
    rw [List.cons_append, containsL_cons, isPrefixOf_cons_ne _ _ hc]
    simp only [Bool.false_or]
    exact ih (fun x hx => h x (List.mem_cons_of_mem c hx))

theorem containsL_noBrace_false {s : List Char} (h : noBrace s) (pr : List Char) :
    containsL s ('\x7b' :: pr) = false := by
  have hskip := containsL_noBrace_skip h pr []
  rw [List.append_nil] at hskip
  rw [hskip]
  rfl

theorem containsL_skip_tok1 {pr ur : List Char} (hur : noBrace ur)
    (hm : mismatchWithin ('\x7b' :: pr) ('\x7b' :: ur) = true) (t : List Char) :
    containsL (('\x7b' :: ur) ++ t) ('\x7b' :: pr) = containsL t ('\x7b' :: pr) := by
  rw [List.cons_append, containsL_cons]
  rw [show '\x7b' :: (ur ++ t) = ('\x7b' :: ur) ++ t from rfl]
  rw [not_prefix_of_mismatch _ _ _ hm]
  simp only [Bool.false_or]
  exact containsL_noBrace_skip hur pr t

theorem containsL_skip_tok2 {pr r : List Char} (hr : noBrace r)
    (hm0 : mismatchWithin ('\x7b' :: pr) ('\x7b' :: '\x7b' :: r) = true)
    (hm1 : mismatchWithin ('\x7b' :: pr) ('\x7b' :: r) = true) (t : List Char) :
    containsL (('\x7b' :: '\x7b' :: r) ++ t) ('\x7b' :: pr) =
      containsL t ('\x7b' :: pr) := by
  rw [List.cons_append, containsL_cons]
  rw [show '\x7b' :: ('\x7b' :: r ++ t) = ('\x7b' :: '\x7b' :: r) ++ t from rfl]
  rw [not_prefix_of_mismatch _ _ _ hm0]
  simp only [Bool.false_or]
  exact containsL_skip_tok1 hr hm1 t

theorem replaceFirstL_noBrace_skip {s : List Char} (h : noBrace s)
    (pr rep t : List Char) :
    replaceFirstL ('\x7b' :: pr) rep (s ++ t) = s ++ replaceFirstL ('\x7b' :: pr) rep t := by
  induction s with
  | nil => rfl
  | cons c cs ih =>
    have hc : c ≠ '\x7b' := h c (List.mem_cons_self c cs)
    rw [List.cons_append, replaceFirstL, isPrefixOf_cons_ne _ _ hc]
    simp only [Bool.false_eq_true, if_false, List.cons_append]
    rw [ih (fun x hx => h x (List.mem_cons_of_mem c hx))]

theorem replaceFirstL_here (pr rep t : List Char) :
    replaceFirstL ('\x7b' :: pr) rep (('\x7b' :: pr) ++ t) = rep ++ t := by
  rw [show ('\x7b' :: pr) ++ t = '\x7b' :: (pr ++ t) from rfl]
  rw [replaceFirstL]
  rw [show ('\x7b' :: pr).isPrefixOf ('\x7b' :: (pr ++ t)) =
        ('\x7b' :: pr).isPrefixOf (('\x7b' :: pr) ++ t) from rfl]
  rw [isPrefixOf_self_append]
  simp only [if_true]
  rw [show ('\x7b' :: (pr ++ t)) = ('\x7b' :: pr) ++ t from rfl, List.drop_left]

theorem replaceAllGo_skipRun (pat rep : List Char) (u t : List Char) :
    replaceAllGo pat rep (u ++ t) u.length = replaceAllGo pat rep t 0 := by
  induction u with
  | nil => rfl
  | cons c cs ih => simpa [replaceAllGo] using ih

theorem replaceAllL_noBrace_skip {s : List Char} (h : noBrace s)
    (pr rep t : List Char) :
    replaceAllL ('\x7b' :: pr) rep (s ++ t) = s ++ replaceAllL ('\x7b' :: pr) rep t := by
  induction s with
  | nil => rfl
  | cons c cs ih =>
    have hc : c ≠ '\x7b' := h c (List.mem_cons_self c cs)
    rw [List.cons_append]
    show replaceAllGo _ _ _ 0 = _
    rw [replaceAllGo, isPrefixOf_cons_ne _ _ hc]
    simp only [Bool.and_false, Bool.false_eq_true, if_false, List.cons_append]
    exact congrArg (c :: ·) (ih (fun x hx => h x (List.mem_cons_of_mem c hx)))

theorem replaceAllL_here (pr rep t : List Char) :
    replaceAllL ('\x7b' :: pr) rep (('\x7b' :: pr) ++ t) =
      rep ++ replaceAllL ('\x7b' :: pr) rep t := by
  show replaceAllGo _ _ _ 0 = _
  rw [show ('\x7b' :: pr) ++ t = '\x7b' :: (pr ++ t) from rfl]
  rw [replaceAllGo]
  rw [show ('\x7b' :: pr).isPrefixOf ('\x7b' :: (pr ++ t)) =
        ('\x7b' :: pr).isPrefixOf (('\x7b' :: pr) ++ t) from rfl]
  rw [isPrefixOf_self_append]
  simp only [List.isEmpty_cons, Bool.not_false, Bool.true_and, if_true]
  rw [show ('\x7b' :: pr).length - 1 = pr.length from rfl]
  rw [replaceAllGo_skipRun]
  rfl

theorem replaceAllL_noBrace_id {s : List Char} (h : noBrace s) (pr rep : List Char) :
    replaceAllL ('\x7b' :: pr) rep s = s := by
  have hskip := replaceAllL_noBrace_skip h pr rep []
  rw [List.append_nil] at hskip
  rw [hskip]
  rw [show replaceAllL ('\x7b' :: pr) rep [] = [] from rfl, List.append_nil]

theorem replaceAllL_skip_tok1 {pr ur : List Char} (hur : noBrace ur)
    (hm : mismatchWithin ('\x7b' :: pr) ('\x7b' :: ur) = true) (rep t : List Char) :
    replaceAllL ('\x7b' :: pr) rep (('\x7b' :: ur) ++ t) =
      ('\x7b' :: ur) ++ replaceAllL ('\x7b' :: pr) rep t := by
  show replaceAllGo _ _ _ 0 = _
  rw [show ('\x7b' :: ur) ++ t = '\x7b' :: (ur ++ t) from rfl]
  rw [replaceAllGo]
  rw [show ('\x7b' :: pr).isPrefixOf ('\x7b' :: (ur ++ t)) =
        ('\x7b' :: pr).isPrefixOf (('\x7b' :: ur) ++ t) from rfl]
  rw [not_prefix_of_mismatch _ _ _ hm]
  simp only [Bool.and_false, Bool.false_eq_true, if_false, List.cons_append]
  exact congrArg ('\x7b' :: ·) (replaceAllL_noBrace_skip hur pr rep t)

theorem replaceAllL_skip_tok2 {pr r : List Char} (hr : noBrace r)
    (hm0 : mismatchWithin ('\x7b' :: pr) ('\x7b' :: '\x7b' :: r) = true)
    (hm1 : mismatchWithin ('\x7b' :: pr) ('\x7b' :: r) = true) (rep t : List Char) :
    replaceAllL ('\x7b' :: pr) rep (('\x7b' :: '\x7b' :: r) ++ t) =
      ('\x7b' :: '\x7b' :: r) ++ replaceAllL ('\x7b' :: pr) rep t := by
  show replaceAllGo _ _ _ 0 = _
  rw [show ('\x7b' :: '\x7b' :: r) ++ t = '\x7b' :: (('\x7b' :: r) ++ t) from rfl]
  rw [replaceAllGo]
  rw [show ('\x7b' :: pr).isPrefixOf ('\x7b' :: (('\x7b' :: r) ++ t)) =
        ('\x7b' :: pr).isPrefixOf (('\x7b' :: '\x7b' :: r) ++ t) from rfl]
  rw [not_prefix_of_mismatch _ _ _ hm0]
  simp only [Bool.and_false, Bool.false_eq_true, if_false, List.cons_append]
  have h1 := replaceAllL_skip_tok1 hr hm1 rep t
  rw [show (('\x7b' :: r) ++ t) = '\x7b' :: (r ++ t) from rfl] at h1
  exact congrArg ('\x7b' :: ·) h1

theorem asString_eq (l : List Char) (s : String) (h : l = s.data) :
    l.asString = s := by
  rw [h, asString_data]

/-- The token constants in cons form, exposing the opening braces to
the scanning lemmas. -/
theorem cssTok_data : cssTok.data = '\x7b' :: cssTokTail.data := by decide
theorem contentTok_data : contentTok.data = '\x7b' :: contentTokTail.data := by decide
theorem titleTok_data : titleTok.data = '\x7b' :: '\x7b' :: titleTokRest.data := by decide
theorem prevTok_data : prevTok.data = '\x7b' :: '\x7b' :: prevTokRest.data := by decide
theorem tocTok_data : tocTok.data = '\x7b' :: '\x7b' :: tocTokRest.data := by decide
theorem nextTok_data : nextTok.data = '\x7b' :: '\x7b' :: nextTokRest.data := by decide
theorem pageTocTok_data : pageTocTok.data = '\x7b' :: pageTocTokTail.data := by decide
theorem pageTocDataTok_data :
    pageTocDataTok.data = '\x7b' :: pageTocDataTokTail.data := by decide

/-- C1 counterexample: a template holding the CSS token twice keeps its
second occurrence after substitution, because the script substitutes the
CSS and body tokens with a plain string pattern (first occurrence only);
the claim reading replaces both. -/
theorem c1_counterexample :
    processTemplate "X\x7b%TAILWIND_CSS%\x7dY\x7b%TAILWIND_CSS%\x7dZ"
        "c" "b" "t" "p" "o" "n" "h" "d" = "XcY\x7b%TAILWIND_CSS%\x7dZ" ∧
    containsTok
      (processTemplate "X\x7b%TAILWIND_CSS%\x7dY\x7b%TAILWIND_CSS%\x7dZ"
        "c" "b" "t" "p" "o" "n" "h" "d") cssTok = true ∧
    claimProcessTemplate "X\x7b%TAILWIND_CSS%\x7dY\x7b%TAILWIND_CSS%\x7dZ"
        "c" "b" "t" "p" "o" "n" "h" "d" = "XcYcZ" := by
  decide

/-- C1 amended: on templates made of brace-free segments around token
occurrences, with brace-free substitution values, the six title,
navigation and TOC tokens are substituted at every occurrence, while
the CSS and body tokens are substituted only at their first occurrence
and later occurrences are left in place.  The four equations exhibit
this for a two-occurrence template of each kind of token. -/
theorem c1_global_substitution
    (A B C css body title prev toc next tocH tocD : String)
    (hA : noBrace A.data) (hB : noBrace B.data) (hC : noBrace C.data)
    (hcss : noBrace css.data) (hbody : noBrace body.data)
    (htitle : noBrace title.data) :
    processTemplate (A ++ cssTok ++ B ++ cssTok ++ C)
        css body title prev toc next tocH tocD =
      A ++ css ++ B ++ cssTok ++ C ∧
    processTemplate (A ++ contentTok ++ B ++ contentTok ++ C)
        css body title prev toc next tocH tocD =
      A ++ body ++ B ++ contentTok ++ C ∧
    processTemplate (A ++ titleTok ++ B ++ titleTok ++ C)
        css body title prev toc next tocH tocD =
      A ++ title ++ B ++ title ++ C ∧
    processTemplate (A ++ pageTocDataTok ++ B ++ pageTocDataTok ++ C)
        css body title prev toc next tocH tocD =
      A ++ tocD ++ B ++ tocD ++ C := by
  have huCss : noBrace cssTokTail.data := by decide
  have huContent : noBrace contentTokTail.data := by decide
  have huTd : noBrace pageTocDataTokTail.data := by decide
  have huTitle : noBrace titleTokRest.data := by decide
  have m1 : mismatchWithin ('\x7b' :: contentTokTail.data) ('\x7b' :: cssTokTail.data) = true := by decide
  have m2 : mismatchWithin ('\x7b' :: '\x7b' :: titleTokRest.data) ('\x7b' :: cssTokTail.data) = true := by decide
  have m3 : mismatchWithin ('\x7b' :: '\x7b' :: prevTokRest.data) ('\x7b' :: cssTokTail.data) = true := by decide
  have m4 : mismatchWithin ('\x7b' :: '\x7b' :: tocTokRest.data) ('\x7b' :: cssTokTail.data) = true := by decide
  have m5 : mismatchWithin ('\x7b' :: '\x7b' :: nextTokRest.data) ('\x7b' :: cssTokTail.data) = true := by decide
  have m6 : mismatchWithin ('\x7b' :: pageTocTokTail.data) ('\x7b' :: cssTokTail.data) = true := by decide
  have m7 : mismatchWithin ('\x7b' :: pageTocDataTokTail.data) ('\x7b' :: cssTokTail.data) = true := by decide
  have n1 : mismatchWithin ('\x7b' :: cssTokTail.data) ('\x7b' :: contentTokTail.data) = true := by decide
  have n2 : mismatchWithin ('\x7b' :: '\x7b' :: titleTokRest.data) ('\x7b' :: contentTokTail.data) = true := by decide
  have n3 : mismatchWithin ('\x7b' :: '\x7b' :: prevTokRest.data) ('\x7b' :: contentTokTail.data) = true := by decide
  have n4 : mismatchWithin ('\x7b' :: '\x7b' :: tocTokRest.data) ('\x7b' :: contentTokTail.data) = true := by decide
  have n5 : mismatchWithin ('\x7b' :: '\x7b' :: nextTokRest.data) ('\x7b' :: contentTokTail.data) = true := by decide
  have n6 : mismatchWithin ('\x7b' :: pageTocTokTail.data) ('\x7b' :: contentTokTail.data) = true := by decide
  have n7 : mismatchWithin ('\x7b' :: pageTocDataTokTail.data) ('\x7b' :: contentTokTail.data) = true := by decide
  have p1 : mismatchWithin ('\x7b' :: cssTokTail.data) ('\x7b' :: '\x7b' :: titleTokRest.data) = true := by decide
  have p1b : mismatchWithin ('\x7b' :: cssTokTail.data) ('\x7b' :: titleTokRest.data) = true := by decide
  have p2 : mismatchWithin ('\x7b' :: contentTokTail.data) ('\x7b' :: '\x7b' :: titleTokRest.data) = true := by decide
  have p2b : mismatchWithin ('\x7b' :: contentTokTail.data) ('\x7b' :: titleTokRest.data) = true := by decide
  have q1 : mismatchWithin ('\x7b' :: cssTokTail.data) ('\x7b' :: pageTocDataTokTail.data) = true := by decide
  have q2 : mismatchWithin ('\x7b' :: contentTokTail.data) ('\x7b' :: pageTocDataTokTail.data) = true := by decide
  have q3 : mismatchWithin ('\x7b' :: '\x7b' :: titleTokRest.data) ('\x7b' :: pageTocDataTokTail.data) = true := by decide
  have q4 : mismatchWithin ('\x7b' :: '\x7b' :: prevTokRest.data) ('\x7b' :: pageTocDataTokTail.data) = true := by decide
  have q5 : mismatchWithin ('\x7b' :: '\x7b' :: tocTokRest.data) ('\x7b' :: pageTocDataTokTail.data) = true := by decide
  have q6 : mismatchWithin ('\x7b' :: '\x7b' :: nextTokRest.data) ('\x7b' :: pageTocDataTokTail.data) = true := by decide
  have q7 : mismatchWithin ('\x7b' :: pageTocTokTail.data) ('\x7b' :: pageTocDataTokTail.data) = true := by decide
  refine ⟨?_, ?_, ?_, ?_⟩
  · refine asString_eq _ _ ?_
    simp only [processTemplate, String.data_append, List.append_assoc,
      cssTok_data, contentTok_data, titleTok_data, prevTok_data, tocTok_data,
      nextTok_data, pageTocTok_data, pageTocDataTok_data,
      containsL_noBrace_skip hA, containsL_noBrace_skip hB,
      containsL_noBrace_skip hcss, containsL_noBrace_skip hC,
      containsL_here, containsL_noBrace_false hC,
      containsL_skip_tok1 huCss m1, containsL_skip_tok1 huCss m2,
      containsL_skip_tok1 huCss m3, containsL_skip_tok1 huCss m4,
      containsL_skip_tok1 huCss m5, containsL_skip_tok1 huCss m6,
      containsL_skip_tok1 huCss m7,
      eq_self_iff_true, if_true, Bool.false_eq_true, if_false,
      replaceFirstL_noBrace_skip hA, replaceFirstL_here,
      replaceAllL_noBrace_skip hA, replaceAllL_noBrace_skip hB,
      replaceAllL_noBrace_skip hcss, replaceAllL_noBrace_id hC,
      replaceAllL_skip_tok1 huCss m2, replaceAllL_skip_tok1 huCss m3,
      replaceAllL_skip_tok1 huCss m4, replaceAllL_skip_tok1 huCss m5,
      replaceAllL_skip_tok1 huCss m6, replaceAllL_skip_tok1 huCss m7]
  · refine asString_eq _ _ ?_
    simp only [processTemplate, String.data_append, List.append_assoc,
      cssTok_data, contentTok_data, titleTok_data, prevTok_data, tocTok_data,
      nextTok_data, pageTocTok_data, pageTocDataTok_data,
      containsL_noBrace_skip hA, containsL_noBrace_skip hB,
      containsL_noBrace_skip hbody, containsL_noBrace_skip hC,
      containsL_here, containsL_noBrace_false hC,
      containsL_skip_tok1 huContent n1, containsL_skip_tok1 huContent n2,
      containsL_skip_tok1 huContent n3, containsL_skip_tok1 huContent n4,
      containsL_skip_tok1 huContent n5, containsL_skip_tok1 huContent n6,
      containsL_skip_tok1 huContent n7,
      eq_self_iff_true, if_true, Bool.false_eq_true, if_false,
      replaceFirstL_noBrace_skip hA, replaceFirstL_here,
      replaceAllL_noBrace_skip hA, replaceAllL_noBrace_skip hB,
      replaceAllL_noBrace_skip hbody, replaceAllL_noBrace_id hC,
      replaceAllL_skip_tok1 huContent n2, replaceAllL_skip_tok1 huContent n3,
      replaceAllL_skip_tok1 huContent n4, replaceAllL_skip_tok1 huContent n5,
      replaceAllL_skip_tok1 huContent n6, replaceAllL_skip_tok1 huContent n7]
  · refine asString_eq _ _ ?_
    simp only [processTemplate, String.data_append, List.append_assoc,
      cssTok_data, contentTok_data, titleTok_data, prevTok_data, tocTok_data,
      nextTok_data, pageTocTok_data, pageTocDataTok_data,
      containsL_noBrace_skip hA, containsL_noBrace_skip hB,
      containsL_noBrace_skip hC,
      containsL_skip_tok2 huTitle p1 p1b, containsL_skip_tok2 huTitle p2 p2b,
      containsL_noBrace_false hC,
      eq_self_iff_true, if_true, Bool.false_eq_true, if_false,
      replaceAllL_noBrace_skip hA, replaceAllL_noBrace_skip hB,
      replaceAllL_noBrace_skip htitle, replaceAllL_here,
      replaceAllL_noBrace_id hC]
  · refine asString_eq _ _ ?_
    simp only [processTemplate, String.data_append, List.append_assoc,
      cssTok_data, contentTok_data, titleTok_data, prevTok_data, tocTok_data,
      nextTok_data, pageTocTok_data, pageTocDataTok_data,
      containsL_noBrace_skip hA, containsL_noBrace_skip hB,
      containsL_noBrace_skip hC,
      containsL_skip_tok1 huTd q1, containsL_skip_tok1 huTd q2,
      containsL_noBrace_false hC,
      eq_self_iff_true, if_true, Bool.false_eq_true, if_false,
      replaceAllL_noBrace_skip hA, replaceAllL_noBrace_skip hB,
      replaceAllL_here, replaceAllL_noBrace_id hC,
      replaceAllL_skip_tok1 huTd q3, replaceAllL_skip_tok1 huTd q4,
      replaceAllL_skip_tok1 huTd q5, replaceAllL_skip_tok1 huTd q6,
      replaceAllL_skip_tok1 huTd q7]

theorem c1_global_substitution_witness :
    noBrace ("X" : String).data ∧
    processTemplate ("X" ++ cssTok ++ "Y" ++ cssTok ++ "Z")
        "c" "b" "t" "p" "o" "n" "h" "d" =
      "X" ++ "c" ++ "Y" ++ cssTok ++ "Z" ∧
    processTemplate ("X" ++ titleTok ++ "Y" ++ titleTok ++ "Z")
        "c" "b" "t" "p" "o" "n" "h" "d" =
      "X" ++ "t" ++ "Y" ++ "t" ++ "Z" :=
  ⟨by decide,
   (c1_global_substitution "X" "Y" "Z" "c" "b" "t" "p" "o" "n" "h" "d"
      (by decide) (by decide) (by decide) (by decide) (by decide) (by decide)).1,
   (c1_global_substitution "X" "Y" "Z" "c" "b" "t" "p" "o" "n" "h" "d"
      (by decide) (by decide) (by decide) (by decide) (by decide) (by decide)).2.2.1⟩

end Books
